import Mathlib

/-!
# afero-dropbox: a filesystem facade over the Dropbox object store

A shallow embedding of `errors.go`, `fs.go` and `file.go`.

* Go errors are values of `GoError`; a Go `error` result is an `Option GoError`
  (`none` is Go's `nil`).
* The Dropbox SDK client (`files.Client`) is an external collaborator: it is a
  record of response functions over an arbitrary store state `σ`.  Every call
  made to it is appended to the `calls` trace of the `World`.
* A run-time panic, a goroutine blocked for ever and an exhausted loop budget
  are the three `Fault`s; code that can hit one returns in `Run`.
* The upload goroutine started by `openWriteStream` is sequentialised: its body
  (`File.uploadTask`) runs at the point where `Close` joins it.
-/

namespace Dropbox

/-! ## Errors -/

/-- Go error values that this package creates, receives or compares against. -/
inductive GoError where
  /-- errors.go: `ErrNotSupported`. -/
  | ErrNotSupported
  /-- errors.go: `ErrAlreadyOpened`. -/
  | ErrAlreadyOpened
  /-- errors.go: `ErrInvalidSeek`. -/
  | ErrInvalidSeek
  /-- Go `os.ErrNotExist`. -/
  | osErrNotExist
  /-- Package afero: `afero.ErrFileClosed` ("File is closed"). -/
  | ErrFileClosed
  /-- Go `io.EOF`. -/
  | EOF
  /-- Go `io.ErrClosedPipe`. -/
  | ErrClosedPipe
  /-- Dropbox SDK `files.GetMetadataAPIError`, with its `ErrorSummary`. -/
  | GetMetadataAPIError (ErrorSummary : String)
  /-- Any other error value produced by the store client. -/
  | other (msg : String)
  /-- The value of `fmt.Errorf(msg + ": %w", err)` for a non-nil `err`. -/
  | wrapf (msg : String) (err : GoError)
  /-- The value of `fmt.Errorf(msg + ": %w", err)` when `err` is nil:
  a non-nil error that wraps nothing. -/
  | wrapfNil (msg : String)
  deriving DecidableEq, Repr

/-- Go `fmt.Errorf(msg + ": %w", err)`: it always returns a non-nil error. -/
def fmtErrorf (msg : String) : Option GoError → GoError
  | some err => GoError.wrapf msg err
  | none => GoError.wrapfNil msg

/-- Go `errors.Unwrap`. -/
def GoError.Unwrap : GoError → Option GoError
  | GoError.wrapf _ err => some err
  | _ => none

/-- Go `errors.Is err target`: `target` occurs in the chain that starts at `err`. -/
def errorsIs : GoError → GoError → Bool
  | GoError.wrapf msg err, target =>
      decide (GoError.wrapf msg err = target) || errorsIs err target
  | err, target => decide (err = target)

/-- An error `err` wraps `target`: `err` was built by `fmt.Errorf` with `%w` around an
error whose chain contains `target`. -/
def GoError.Wraps : GoError → GoError → Bool
  | GoError.wrapf _ inner, target => errorsIs inner target
  | _, _ => false

/-- Go `errors.As(err, &files.GetMetadataAPIError)`: the first metadata API error in the
chain of `err`, by its `ErrorSummary`. -/
def asGetMetadataAPIError : GoError → Option String
  | GoError.GetMetadataAPIError summary => some summary
  | GoError.wrapf _ err => asGetMetadataAPIError err
  | _ => none

/-- Go `os.IsNotExist`, on the error values of this model (it does not follow `%w` chains). -/
def osIsNotExist : Option GoError → Bool
  | some GoError.osErrNotExist => true
  | _ => false

/-- Ways in which a call does not return. -/
inductive Fault where
  /-- A Go run-time panic. -/
  | panic (msg : String)
  /-- The goroutine blocks for ever on a channel operation. -/
  | deadlock
  /-- The loop budget of the model ran out. -/
  | outOfFuel
  deriving DecidableEq, Repr

/-- A computation that returns a value or ends in a `Fault`. -/
abbrev Run (α : Type) := Except Fault α

/-! ## Strings and paths (Go `strings` and `path`) -/

/-- Go `strings.HasPrefix s pre`. -/
def hasPrefixStr (s pre : String) : Bool := pre.data.isPrefixOf s.data

/-- Go `strings.Split` on a one-character separator, over character lists. -/
def splitChars (sep : Char) : List Char → List (List Char)
  | [] => [[]]
  | c :: cs =>
      if c = sep then [] :: splitChars sep cs
      else match splitChars sep cs with
        | [] => [[c]]
        | h :: t => (c :: h) :: t

/-- Go `strings.Split(s, "/")`. -/
def stringsSplit (s : String) : List String := (splitChars '/' s.data).map String.mk

/-- One component of `path.Clean`: empty and `.` components are dropped, `..` removes the
component before it (or is kept, on a relative path with nothing to remove). The stack
holds the kept components, last one first. -/
def cleanStep (rooted : Bool) (stack : List (List Char)) (comp : List Char) : List (List Char) :=
  if comp = [] ∨ comp = ['.'] then stack
  else if comp = ['.', '.'] then
    match stack with
    | [] => if rooted then [] else [comp]
    | top :: rest => if top = ['.', '.'] then comp :: top :: rest else rest
  else comp :: stack

/-- Go `path.Clean`. -/
def pathClean (p : String) : String :=
  match p.data with
  | [] => "."
  | c :: cs =>
      let rooted := decide (c = '/')
      let comps := ((splitChars '/' (c :: cs)).foldl (cleanStep rooted) []).reverse
      let body := List.intercalate ['/'] comps
      if rooted then String.mk ('/' :: body)
      else if body = [] then "." else String.mk body

/-- Go `path.Join`: leading empty elements are ignored, the rest are joined with a slash
and cleaned; with no non-empty element the result is the empty string. -/
def pathJoin (elem : List String) : String :=
  match elem.dropWhile (fun e => e = "") with
  | [] => ""
  | es => pathClean (String.mk (List.intercalate ['/'] (es.map String.data)))

/-- Go `int64(x)`: two's-complement wrap-around to 64 bits. -/
def wrap64 (x : Int) : Int := (x + 2 ^ 63) % 2 ^ 64 - 2 ^ 63

/-! ## Store client (Dropbox SDK `files.Client`) -/

/-- A byte. -/
abbrev Byte := Fin 256

/-- A byte sequence. -/
abbrev Bytes := List Byte

/-- Dropbox SDK `files.IsMetadata` values that the package inspects. -/
inductive Metadata where
  /-- A `*files.FileMetadata`. -/
  | FileMetadata (Name : String) (Size : Nat) (ClientModified : Nat)
  /-- A `*files.FolderMetadata`. -/
  | FolderMetadata (Name : String)
  /-- The nil `*files.FileMetadata` that comes with a failed `Upload`. -/
  | nilFileMetadata
  deriving DecidableEq, Repr

/-- Dropbox SDK `files.CommitInfo`, as filled in by the upload goroutine. -/
structure CommitInfo where
  Path : String
  Mode : String
  Autorename : Bool
  deriving DecidableEq, Repr

/-- Dropbox SDK `files.ListFolderArg`. -/
structure ListFolderArg where
  Path : String
  Limit : Nat
  deriving DecidableEq, Repr

/-- Dropbox SDK `files.ListFolderResult`. -/
structure ListFolderResult where
  Entries : List Metadata
  Cursor : String
  HasMore : Bool
  deriving DecidableEq, Repr

/-- The `io.ReadCloser` handed out by `Download`: the bytes still to be delivered and the
result its `Close` will report. -/
structure ReadCloser where
  data : Bytes
  closeErr : Option GoError
  deriving DecidableEq, Repr

/-- One call to the store client. -/
inductive Call where
  | Upload (arg : CommitInfo) (content : Bytes)
  | Download (path : String)
  | ListFolder (arg : ListFolderArg)
  | ListFolderContinue (cursor : String)
  | GetMetadata (path : String)
  | DeleteV2 (path : String)
  | MoveV2 (fromPath toPath : String)
  | CreateFolderV2 (path : String)
  deriving DecidableEq, Repr

/-- The store client: each operation answers from the store state and updates it. -/
structure Client (σ : Type) where
  Upload : CommitInfo → Bytes → σ → Except GoError Metadata × σ
  Download : String → σ → Except GoError ReadCloser × σ
  ListFolder : ListFolderArg → σ → Except GoError ListFolderResult × σ
  ListFolderContinue : String → σ → Except GoError ListFolderResult × σ
  GetMetadata : String → σ → Except GoError Metadata × σ
  DeleteV2 : String → σ → Option GoError × σ
  MoveV2 : String → String → σ → Option GoError × σ
  CreateFolderV2 : String → σ → Option GoError × σ

/-- The store together with the trace of the calls made to it so far. -/
structure World (σ : Type) where
  store : σ
  calls : List Call

/-- The world after one more store call. -/
def World.record {σ : Type} (w : World σ) (c : Call) (s : σ) : World σ :=
  { store := s, calls := w.calls ++ [c] }

/-! ## fs.go and file.go: data -/

/-- The filesystem, fs.go `Fs` (the SDK configuration is left out). -/
structure Fs (σ : Type) where
  files : Client σ
  rootPath : String
  dirListLimit : Int

/-- A file description, file.go `FileInfo`. -/
structure FileInfo where
  meta : Metadata
  deriving DecidableEq, Repr

/-- file.go `newFileInfo`. -/
def newFileInfo (m : Metadata) : FileInfo := { meta := m }

/-- file.go `FileInfo.Name`. -/
def FileInfo.Name (f : FileInfo) : Run String :=
  match f.meta with
  | Metadata.FileMetadata name _ _ => pure name
  | Metadata.FolderMetadata name => pure name
  | Metadata.nilFileMetadata => throw (Fault.panic "nil pointer dereference")

/-- file.go `FileInfo.Size`. -/
def FileInfo.Size (f : FileInfo) : Run Int :=
  match f.meta with
  | Metadata.FileMetadata _ size _ => pure (wrap64 size)
  | Metadata.FolderMetadata _ => pure 0
  | Metadata.nilFileMetadata => throw (Fault.panic "nil pointer dereference")

/-- file.go `FileInfo.Mode`: always `simulatedFileMode`. -/
def FileInfo.Mode (_ : FileInfo) : Nat := 0o777

/-- file.go `FileInfo.IsDir`. -/
def FileInfo.IsDir (f : FileInfo) : Bool :=
  match f.meta with
  | Metadata.FolderMetadata _ => true
  | _ => false

/-- file.go `FileInfo.Sys`. -/
def FileInfo.Sys (f : FileInfo) : Metadata := f.meta

/-- The write end of the `io.Pipe` whose read end feeds `Upload`: the bytes written so far
and whether the end was closed. -/
structure PipeWriter where
  buf : Bytes
  closed : Bool
  deriving DecidableEq, Repr

/-- Go `(*io.PipeWriter).Close`: it always returns nil. -/
def PipeWriter.Close (pw : PipeWriter) : Option GoError × PipeWriter :=
  (none, { pw with closed := true })

/-- Go `(*io.PipeWriter).Write`. -/
def PipeWriter.Write (pw : PipeWriter) (p : Bytes) : (Nat × Option GoError) × PipeWriter :=
  if pw.closed then ((0, some GoError.ErrClosedPipe), pw)
  else ((p.length, none), { pw with buf := pw.buf ++ p })

/-- file.go `dirListingMaxLimit`. -/
def dirListingMaxLimit : Nat := 2000

/-- A file handle, file.go `File`. The `fs` pointer is passed to each operation instead.
`streamWriteCloseErr` says whether the channel is non-nil; `dirList` is `none` for a nil
channel and otherwise the queue of buffered entries. -/
structure File where
  name : String
  streamWrite : Option PipeWriter
  streamRead : Option ReadCloser
  streamWriteCloseErr : Bool
  streamWriteErr : Option GoError
  dirCursor : String
  dirList : Option (List FileInfo)
  streamReadOffset : Int
  cachedInfo : Option FileInfo
  deriving DecidableEq, Repr

/-- file.go `newFile`. -/
def newFile (name : String) : File :=
  { name := name, streamWrite := none, streamRead := none, streamWriteCloseErr := true,
    streamWriteErr := none, dirCursor := "", dirList := none, streamReadOffset := 0,
    cachedInfo := none }

/-! ## fs.go: metadata lookup and pass-through operations -/

/-- fs.go `Fs.stat`. -/
def Fs.stat {σ : Type} (fs : Fs σ) (name : String) (w : World σ) :
    (Option FileInfo × Option GoError) × World σ :=
  match fs.files.GetMetadata name w.store with
  | (Except.error err, s) =>
      let w1 := w.record (Call.GetMetadata name) s
      match asGetMetadataAPIError err with
      | some summary =>
          if hasPrefixStr summary "path/not_found/" then ((none, some GoError.osErrNotExist), w1)
          else ((none, some (fmtErrorf "couldn't fetch file info" (some err))), w1)
      | none => ((none, some (fmtErrorf "couldn't fetch file info" (some err))), w1)
  | (Except.ok m, s) => ((some (newFileInfo m), none), w.record (Call.GetMetadata name) s)

/-- fs.go `Fs.Stat`. -/
def Fs.Stat {σ : Type} (fs : Fs σ) (name : String) (w : World σ) :
    (Option FileInfo × Option GoError) × World σ :=
  let p := pathJoin [fs.rootPath, name]
  fs.stat p w

/-- fs.go `Fs.Mkdir`. -/
def Fs.Mkdir {σ : Type} (fs : Fs σ) (name : String) (_perm : Nat) (w : World σ) :
    Option GoError × World σ :=
  let p := pathJoin [fs.rootPath, name]
  match fs.files.CreateFolderV2 p w.store with
  | (err, s) => (some (fmtErrorf "couldn't create dir" err), w.record (Call.CreateFolderV2 p) s)

/-- The loop of fs.go `Fs.MkdirAll` over the remaining path components. -/
def Fs.MkdirAll.loop {σ : Type} (fs : Fs σ) (name : String) (perm : Nat) :
    List String → String → World σ → Option GoError × World σ
  | [], _, w => (none, w)
  | part :: rest, totalPath, w =>
      if part = "" then Fs.MkdirAll.loop fs name perm rest totalPath w
      else
        let totalPath := totalPath ++ "/" ++ part
        match fs.Stat totalPath w with
        | ((_, some err), w1) =>
            if osIsNotExist (some err) then
              match fs.Mkdir name perm w1 with
              | (some err2, w2) => (some err2, w2)
              | (none, w2) => Fs.MkdirAll.loop fs name perm rest totalPath w2
            else (some err, w1)
        | ((_, none), w1) => Fs.MkdirAll.loop fs name perm rest totalPath w1

/-- fs.go `Fs.MkdirAll`. -/
def Fs.MkdirAll {σ : Type} (fs : Fs σ) (name : String) (perm : Nat) (w : World σ) :
    Option GoError × World σ :=
  let p := pathJoin [fs.rootPath, name]
  let parts := stringsSplit p
  Fs.MkdirAll.loop fs name perm parts "" w

/-- fs.go `Fs.Remove`. -/
def Fs.Remove {σ : Type} (fs : Fs σ) (name : String) (w : World σ) : Option GoError × World σ :=
  let p := pathJoin [fs.rootPath, name]
  match fs.files.DeleteV2 p w.store with
  | (err, s) => (some (fmtErrorf "couldn't remove a file" err), w.record (Call.DeleteV2 p) s)

/-- fs.go `Fs.RemoveAll`. -/
def Fs.RemoveAll {σ : Type} (fs : Fs σ) (name : String) (w : World σ) : Option GoError × World σ :=
  fs.Remove name w

/-- fs.go `Fs.Rename`. -/
def Fs.Rename {σ : Type} (fs : Fs σ) (oldname newname : String) (w : World σ) :
    Option GoError × World σ :=
  let fromPath := pathJoin [fs.rootPath, oldname]
  let toPath := pathJoin [fs.rootPath, newname]
  match fs.files.MoveV2 fromPath toPath w.store with
  | (err, s) => (some (fmtErrorf "couldn't rename file" err), w.record (Call.MoveV2 fromPath toPath) s)

/-- fs.go `Fs.Name`. -/
def Fs.Name {σ : Type} (_ : Fs σ) : String := "dropbox"

/-- fs.go `Fs.Chmod`. -/
def Fs.Chmod {σ : Type} (_ : Fs σ) (_name : String) (_mode : Nat) (w : World σ) :
    Option GoError × World σ := (some GoError.ErrNotSupported, w)

/-- fs.go `Fs.Chown`. -/
def Fs.Chown {σ : Type} (_ : Fs σ) (_name : String) (_uid _gid : Int) (w : World σ) :
    Option GoError × World σ := (some GoError.ErrNotSupported, w)

/-- fs.go `Fs.Chtimes`. -/
def Fs.Chtimes {σ : Type} (_ : Fs σ) (_name : String) (_atime _mtime : Nat) (w : World σ) :
    Option GoError × World σ := (some GoError.ErrNotSupported, w)

/-- fs.go `Fs.SetRootDirectory`. -/
def Fs.SetRootDirectory {σ : Type} (fs : Fs σ) (fullPath : String) : Fs σ :=
  { fs with rootPath := fullPath }

/-! ## file.go: streams -/

/-- file.go `File.Stat`. -/
def File.Stat {σ : Type} (fs : Fs σ) (f : File) (w : World σ) :
    (Option FileInfo × Option GoError) × File × World σ :=
  match f.cachedInfo with
  | none =>
      match fs.stat f.name w with
      | ((info, err), w1) => ((info, err), { f with cachedInfo := info }, w1)
  | some info => ((some info, none), f, w)

/-- file.go `File.openWriteStream`, up to the start of the upload goroutine. -/
def File.openWriteStream (f : File) : Option GoError × File :=
  match f.streamWrite with
  | some _ => (some GoError.ErrAlreadyOpened, f)
  | none =>
      (none, { f with cachedInfo := none, streamWriteCloseErr := true,
                      streamWrite := some { buf := [], closed := false } })

/-- The body of the goroutine of file.go `File.openWriteStream`, run on the bytes that went
through the pipe: the `Upload` call, and what it stores in the handle. The result is the
error it sends on `streamWriteCloseErr`. -/
def File.uploadTask {σ : Type} (fs : Fs σ) (f : File) (content : Bytes) (w : World σ) :
    Option GoError × File × World σ :=
  let req : CommitInfo := { Path := f.name, Mode := "overwrite", Autorename := false }
  match fs.files.Upload req content w.store with
  | (Except.error err, s) =>
      (some err,
       { f with streamWriteErr := some err,
                streamWrite := f.streamWrite.map (fun pw => (pw.Close).2),
                cachedInfo := some (newFileInfo Metadata.nilFileMetadata) },
       w.record (Call.Upload req content) s)
  | (Except.ok m, s) =>
      (none, { f with cachedInfo := some (newFileInfo m) }, w.record (Call.Upload req content) s)

/-- file.go `File.Close`. -/
def File.Close {σ : Type} (fs : Fs σ) (f : File) (w : World σ) :
    Run (Option GoError × File × World σ) :=
  match f.streamRead with
  | some rc => pure (rc.closeErr, { f with streamRead := none }, w)
  | none =>
      match f.streamWrite with
      | some pw =>
          match pw.Close with
          | (some err, _) =>
              pure (some (fmtErrorf "problem writing file" (some err)),
                    { f with streamWrite := none, streamWriteCloseErr := false }, w)
          | (none, pw1) =>
              if f.streamWriteCloseErr then
                match File.uploadTask fs { f with streamWrite := some pw1 } pw1.buf w with
                | (err, f1, w1) =>
                    pure (err, { f1 with streamWrite := none, streamWriteCloseErr := false }, w1)
              else throw Fault.deadlock
      | none => pure (none, f, w)

/-- file.go `File.Read`, for a buffer of `n` bytes. The stream delivers as many of its
remaining bytes as fit, and reports `io.EOF` once none remain. -/
def File.Read (f : File) (n : Nat) : Run ((Bytes × Option GoError) × File) :=
  match f.streamRead with
  | none => throw (Fault.panic "nil pointer dereference")
  | some rc =>
      match rc.data with
      | [] => pure (([], some GoError.EOF), f)
      | _ :: _ =>
          pure ((rc.data.take n, none),
                { f with streamRead := some { rc with data := rc.data.drop n } })

/-- file.go `File.Write`. -/
def File.Write (f : File) (p : Bytes) : Run ((Nat × Option GoError) × File) :=
  match f.streamWrite with
  | none => throw (Fault.panic "nil pointer dereference")
  | some pw =>
      match pw.Write p with
      | (res, pw1) => pure (res, { f with streamWrite := some pw1 })

/-- file.go `File.openReadStream`. The request is built without `ExtraHeaders`, so storing
the range header for a positive `startAt` writes into a nil map. -/
def File.openReadStream {σ : Type} (fs : Fs σ) (f : File) (startAt : Int) (w : World σ) :
    Run (Option GoError × File × World σ) :=
  if startAt > 0 then throw (Fault.panic "assignment to entry in nil map")
  else
    match fs.files.Download f.name w.store with
    | (Except.ok rc, s) =>
        pure (some (fmtErrorf "couldn't download file" none),
              { f with streamRead := some rc }, w.record (Call.Download f.name) s)
    | (Except.error err, s) =>
        pure (some (fmtErrorf "couldn't download file" (some err)),
              { f with streamRead := none }, w.record (Call.Download f.name) s)

/-- Go `io.SeekStart`. -/
def SeekStart : Int := 0
/-- Go `io.SeekCurrent`. -/
def SeekCurrent : Int := 1
/-- Go `io.SeekEnd`. -/
def SeekEnd : Int := 2

/-- The `switch whence` of file.go `File.seekRead`: the absolute offset aimed at. -/
def File.seekTarget (f : File) (offset whence : Int) : Run Int :=
  if whence = SeekStart then pure offset
  else if whence = SeekCurrent then pure (wrap64 (f.streamReadOffset + offset))
  else if whence = SeekEnd then
    match f.cachedInfo with
    | none => throw (Fault.panic "nil pointer dereference")
    | some info =>
        match info.Size with
        | Except.ok size => pure (wrap64 (size - offset))
        | Except.error e => throw e
  else pure 0

/-- file.go `File.seekRead`. -/
def File.seekRead {σ : Type} (fs : Fs σ) (f : File) (offset whence : Int) (w : World σ) :
    Run ((Int × Option GoError) × File × World σ) :=
  match File.seekTarget f offset whence with
  | Except.error e => throw e
  | Except.ok startByte =>
      match f.streamRead with
      | none => throw (Fault.panic "nil pointer dereference")
      | some rc =>
          match rc.closeErr with
          | some err =>
              pure ((0, some (fmtErrorf "couldn't close previous stream" (some err))), f, w)
          | none =>
              let f1 := { f with streamRead := none }
              if startByte < 0 then pure ((startByte, some GoError.ErrInvalidSeek), f1, w)
              else
                match File.openReadStream fs f1 startByte w with
                | Except.error e => throw e
                | Except.ok (err, f2, w2) => pure ((startByte, err), f2, w2)

/-- file.go `File.Seek`. -/
def File.Seek {σ : Type} (fs : Fs σ) (f : File) (offset whence : Int) (w : World σ) :
    Run ((Int × Option GoError) × File × World σ) :=
  match f.streamWrite with
  | some _ => pure ((0, some GoError.ErrNotSupported), f, w)
  | none =>
      match f.streamRead with
      | some _ => File.seekRead fs f offset whence w
      | none => pure ((0, some GoError.ErrFileClosed), f, w)

/-- file.go `File.ReadAt`, for a buffer of `n` bytes. -/
def File.ReadAt {σ : Type} (fs : Fs σ) (f : File) (n : Nat) (off : Int) (w : World σ) :
    Run ((Bytes × Option GoError) × File × World σ) :=
  match File.Seek fs f off SeekCurrent w with
  | Except.error e => throw e
  | Except.ok ((_, some err), f1, w1) => pure (([], some err), f1, w1)
  | Except.ok ((_, none), f1, w1) =>
      match File.Read f1 n with
      | Except.error e => throw e
      | Except.ok (res, f2) => pure (res, f2, w1)

/-- file.go `File.WriteAt`. -/
def File.WriteAt {σ : Type} (fs : Fs σ) (f : File) (p : Bytes) (off : Int) (w : World σ) :
    Run ((Nat × Option GoError) × File × World σ) :=
  match File.Seek fs f off SeekCurrent w with
  | Except.error e => throw e
  | Except.ok ((_, some err), f1, w1) => pure ((0, some err), f1, w1)
  | Except.ok ((_, none), f1, w1) =>
      match File.Write f1 p with
      | Except.error e => throw e
      | Except.ok (res, f2) => pure (res, f2, w1)

/-- file.go `File.Name`. -/
def File.Name (f : File) : String := f.name

/-- file.go `File.Sync`. -/
def File.Sync (_ : File) : Option GoError := none

/-- file.go `File.Truncate`. -/
def File.Truncate (_ : File) (_size : Int) : Option GoError := some GoError.ErrNotSupported

/-! ## file.go: directory listing -/

/-- Sending entries on the buffered channel `dirList`, one by one: a send on a nil channel,
or on a channel that already holds `dirListingMaxLimit` entries, blocks for ever. -/
def chanSend : Option (List FileInfo) → List FileInfo → Run (Option (List FileInfo))
  | q, [] => pure q
  | none, _ :: _ => throw Fault.deadlock
  | some q, x :: xs =>
      if q.length < dirListingMaxLimit then chanSend (some (q ++ [x])) xs
      else throw Fault.deadlock

/-- Go `len(ch)` of the channel `dirList`. -/
def chanLen : Option (List FileInfo) → Nat
  | none => 0
  | some q => q.length

/-- file.go `File._readDir`. -/
def File._readDir {σ : Type} (fs : Fs σ) (f : File) (w : World σ) :
    Run (Option GoError × File × World σ) :=
  let step : File × Except GoError ListFolderResult × World σ :=
    if f.dirCursor = "" then
      let req : ListFolderArg :=
        { Path := f.name,
          Limit := if fs.dirListLimit ≠ 0 then (fs.dirListLimit % 2 ^ 32).toNat else 0 }
      match fs.files.ListFolder req w.store with
      | (res, s) => ({ f with dirList := some [] }, res, w.record (Call.ListFolder req) s)
    else
      match fs.files.ListFolderContinue f.dirCursor w.store with
      | (res, s) => (f, res, w.record (Call.ListFolderContinue f.dirCursor) s)
  match step with
  | (f1, Except.error err, w1) =>
      pure (some (fmtErrorf "couldn't fetch files list" (some err)), f1, w1)
  | (f1, Except.ok res, w1) =>
      let f2 := if res.HasMore then { f1 with dirCursor := res.Cursor } else f1
      match chanSend f2.dirList (res.Entries.map newFileInfo) with
      | Except.error e => throw e
      | Except.ok q => pure (none, { f2 with dirList := q }, w1)

/-- The outer loop of file.go `File.Readdir`, with a budget of iterations. -/
def File.Readdir.loop {σ : Type} (fs : Fs σ) (count : Nat) :
    Nat → List FileInfo → File → World σ →
      Run ((Option (List FileInfo) × Option GoError) × File × World σ)
  | 0, list, f, w =>
      if list.length < count then throw Fault.outOfFuel else pure ((some list, none), f, w)
  | fuel + 1, list, f, w =>
      if list.length < count then
        match (if chanLen f.dirList = 0 then File._readDir fs f w
               else (pure (none, f, w) : Run (Option GoError × File × World σ))) with
        | Except.error e => throw e
        | Except.ok (some err, f1, w1) => pure ((none, some err), f1, w1)
        | Except.ok (none, f1, w1) =>
            let k := min (count - list.length) (chanLen f1.dirList)
            File.Readdir.loop fs count fuel (list ++ (f1.dirList.getD []).take k)
              { f1 with dirList := f1.dirList.map (fun q => q.drop k) } w1
      else pure ((some list, none), f, w)

/-- file.go `File.Readdir`; `fuel` bounds the iterations of its outer loop. -/
def File.Readdir {σ : Type} (fs : Fs σ) (fuel : Nat) (f : File) (count : Int) (w : World σ) :
    Run ((Option (List FileInfo) × Option GoError) × File × World σ) :=
  if count < 0 then throw (Fault.panic "makeslice: cap out of range")
  else File.Readdir.loop fs count.toNat fuel [] f w

/-! ## fs.go: opening files -/

/-- Go `os.O_RDONLY`. -/
def O_RDONLY : Nat := 0
/-- Go `os.O_WRONLY`. -/
def O_WRONLY : Nat := 1
/-- Go `os.O_RDWR`. -/
def O_RDWR : Nat := 2
/-- Go `os.O_CREATE` (its value on Linux). -/
def O_CREATE : Nat := 0x40
/-- Go `os.O_APPEND` (its value on Linux). -/
def O_APPEND : Nat := 0x400

/-- fs.go `Fs.OpenFile`. -/
def Fs.OpenFile {σ : Type} (fs : Fs σ) (name : String) (flag : Nat) (_perm : Nat) (w : World σ) :
    Run ((Option File × Option GoError) × World σ) :=
  let p := pathJoin [fs.rootPath, name]
  let file := newFile p
  if flag &&& O_RDWR ≠ 0 then pure ((none, some GoError.ErrNotSupported), w)
  else if flag &&& O_APPEND ≠ 0 then pure ((none, some GoError.ErrNotSupported), w)
  else
    let flag := if flag &&& O_CREATE ≠ 0 then flag ||| O_WRONLY else flag
    if flag &&& O_WRONLY ≠ 0 then
      match file.openWriteStream with
      | (err, file1) => pure ((some file1, err), w)
    else
      match File.Stat fs file w with
      | ((_, some err), _, w1) => pure ((none, some err), w1)
      | ((none, none), _, _) => throw (Fault.panic "nil pointer dereference")
      | ((some info, none), file1, w1) =>
          if info.IsDir then pure ((some file1, none), w1)
          else
            match File.openReadStream fs file1 0 w1 with
            | Except.error e => throw e
            | Except.ok (err, file2, w2) => pure ((some file2, err), w2)

/-- fs.go `Fs.Open`. -/
def Fs.Open {σ : Type} (fs : Fs σ) (name : String) (w : World σ) :
    Run ((Option File × Option GoError) × World σ) :=
  fs.OpenFile name O_RDONLY 0o777 w

/-- fs.go `Fs.Create`. -/
def Fs.Create {σ : Type} (fs : Fs σ) (name : String) (w : World σ) :
    Run ((Option File × Option GoError) × World σ) :=
  match fs.OpenFile name O_WRONLY 0o777 w with
  | Except.error e => throw e
  | Except.ok ((_, some err), w1) => pure ((none, some err), w1)
  | Except.ok ((none, none), _) => throw (Fault.panic "nil pointer dereference")
  | Except.ok ((some f, none), w1) =>
      match File.Close fs f w1 with
      | Except.error e => throw e
      | Except.ok (some errClose, _, w2) =>
          pure ((none, some (fmtErrorf "issue while closing empty file" (some errClose))), w2)
      | Except.ok (none, f1, w2) =>
          match f1.openWriteStream with
          | (err, f2) => pure ((some f2, err), w2)

/-! ## Reference stores -/

/-- An in-memory object store: file contents by path, and the set of folders. -/
structure MemStore where
  objects : List (String × Bytes)
  folders : List String
  deriving DecidableEq, Repr

/-- The last component of a slash-separated path. -/
def baseName (p : String) : String := ((stringsSplit p).getLast?).getD ""

/-- A store client over `MemStore` that keeps exactly what is uploaded to it, serves it back
on download, and answers a lookup of a missing path with the path-not-found API error.
Listing is not served by this client. -/
def memClient : Client MemStore where
  Upload arg content s :=
    (Except.ok (Metadata.FileMetadata (baseName arg.Path) content.length 0),
     { s with objects := (arg.Path, content) :: s.objects.filter (fun o => o.1 ≠ arg.Path) })
  Download path s :=
    match s.objects.lookup path with
    | some b => (Except.ok { data := b, closeErr := none }, s)
    | none => (Except.error (GoError.other "path/not_found/"), s)
  ListFolder _ s := (Except.error (GoError.other "listing not served"), s)
  ListFolderContinue _ s := (Except.error (GoError.other "listing not served"), s)
  GetMetadata path s :=
    match s.objects.lookup path with
    | some b => (Except.ok (Metadata.FileMetadata (baseName path) b.length 0), s)
    | none =>
        if path ∈ s.folders then (Except.ok (Metadata.FolderMetadata (baseName path)), s)
        else (Except.error (GoError.GetMetadataAPIError "path/not_found/.."), s)
  DeleteV2 path s :=
    (none, { objects := s.objects.filter (fun o => o.1 ≠ path),
             folders := s.folders.filter (fun d => d ≠ path) })
  MoveV2 fromPath toPath s :=
    match s.objects.lookup fromPath with
    | some b =>
        (none, { s with objects :=
          (toPath, b) :: s.objects.filter (fun o => o.1 ≠ fromPath ∧ o.1 ≠ toPath) })
    | none => (some (GoError.other "from_lookup/not_found/"), s)
  CreateFolderV2 path s :=
    if path ∈ s.folders then (some (GoError.other "path/conflict/folder/"), s)
    else (none, { s with folders := path :: s.folders })

/-- A store client that serves the listing of one directory, `entries`, in pages. Its state
is the page size in force, taken from the `Limit` of the last `ListFolder` (the whole
listing when that is 0). A cursor is a run of `+`, one per entry already served; continuing
from a cursor serves the page that follows it. Nothing but listing is served. -/
def listingClient (entries : List Metadata) : Client Nat where
  Upload _ _ s := (Except.error (GoError.other "not served"), s)
  Download _ s := (Except.error (GoError.other "not served"), s)
  ListFolder arg _ :=
    let page := if arg.Limit = 0 then entries.length else arg.Limit
    (Except.ok { Entries := entries.take page,
                 Cursor := String.mk (List.replicate page '+'),
                 HasMore := decide (page < entries.length) }, page)
  ListFolderContinue cursor page :=
    let served := cursor.data.length
    (Except.ok { Entries := (entries.drop served).take page,
                 Cursor := String.mk (List.replicate (served + page) '+'),
                 HasMore := decide (served + page < entries.length) }, page)
  GetMetadata _ s := (Except.ok (Metadata.FolderMetadata "dir1"), s)
  DeleteV2 _ s := (some (GoError.other "not served"), s)
  MoveV2 _ _ s := (some (GoError.other "not served"), s)
  CreateFolderV2 _ s := (some (GoError.other "not served"), s)

/-! ## Scenarios of the test suite -/

/-- The test that fs.go `Fs.stat` applies to the error of a failed lookup: a metadata API
error is found in its chain and its summary starts with `path/not_found/`. -/
def isPathNotFound (err : GoError) : Bool :=
  match asGetMetadataAPIError err with
  | some summary => hasPrefixStr summary "path/not_found/"
  | none => false

/-- The commit request built by the upload goroutine for the handle `f`. -/
def File.commitInfo (f : File) : CommitInfo :=
  { Path := f.name, Mode := "overwrite", Autorename := false }

/-- Writing the chunks one after the other with `File.Write`, up to the first error. -/
def File.writeAll (f : File) : List Bytes → Run (Option GoError × File)
  | [] => pure (none, f)
  | p :: ps =>
      match f.Write p with
      | Except.error e => throw e
      | Except.ok ((_, some err), f1) => pure (some err, f1)
      | Except.ok ((_, none), f1) => File.writeAll f1 ps

/-- Opening a write stream on a handle, writing the chunks and closing it, as in `TestStat`
of fs_test.go: the result is the first error met, if any, with the handle and the world. -/
def File.writeAndClose {σ : Type} (fs : Fs σ) (f : File) (chunks : List Bytes) (w : World σ) :
    Run (Option GoError × File × World σ) :=
  match f.openWriteStream with
  | (some err, f1) => pure (some err, f1, w)
  | (none, f1) =>
      match File.writeAll f1 chunks with
      | Except.error e => throw e
      | Except.ok (some err, f2) => pure (some err, f2, w)
      | Except.ok (none, f2) => File.Close fs f2 w

/-- The steps of test_utils_test.go `testWriteFile`: `OpenFile(name, O_WRONLY)`, the writes,
`Close`, then `OpenFile(name, O_RDONLY)`. The result lists the error of each of the three
calls around the writes and the bytes that the second handle's stream holds. -/
def writeThenReopen {σ : Type} (fs : Fs σ) (name : String) (chunks : List Bytes) (w : World σ) :
    Run (Option GoError × Option GoError × Option GoError × Option Bytes) :=
  match fs.OpenFile name O_WRONLY 0o777 w with
  | Except.error e => throw e
  | Except.ok ((none, errOpen), _) => pure (errOpen, none, none, none)
  | Except.ok ((some f, errOpen), w1) =>
      match File.writeAll f chunks with
      | Except.error e => throw e
      | Except.ok (some errWrite, _) => pure (errOpen, some errWrite, none, none)
      | Except.ok (none, f1) =>
          match File.Close fs f1 w1 with
          | Except.error e => throw e
          | Except.ok (errClose, _, w2) =>
              match fs.OpenFile name O_RDONLY 0o777 w2 with
              | Except.error e => throw e
              | Except.ok ((file, errOpen2), _) =>
                  pure (errOpen, errClose, errOpen2,
                        (file.bind (fun h => h.streamRead)).map (fun rc => rc.data))

/-- A read of `n` bytes followed by a `Seek`, as in `TestFileSeekBasic` of fs_test.go: the
bytes read and what `Seek` returns. -/
def readThenSeek {σ : Type} (fs : Fs σ) (f : File) (n : Nat) (offset whence : Int)
    (w : World σ) : Run (Bytes × (Int × Option GoError)) :=
  match f.Read n with
  | Except.error e => throw e
  | Except.ok ((bytes, _), f1) =>
      match File.Seek fs f1 offset whence w with
      | Except.error e => throw e
      | Except.ok (res, _, _) => pure (bytes, res)

/-- Successive `Readdir` calls on one handle, as in `TestDirList` of fs_test.go: for each
requested size, the names of the entries returned and the error. -/
def readdirSeq {σ : Type} (fs : Fs σ) (fuel : Nat) :
    File → World σ → List Int → Run (List (List Metadata × Option GoError))
  | _, _, [] => pure []
  | f, w, n :: ns =>
      match File.Readdir fs fuel f n w with
      | Except.error e => throw e
      | Except.ok ((list, err), f1, w1) =>
          match readdirSeq fs fuel f1 w1 ns with
          | Except.error e => throw e
          | Except.ok rest => pure (((list.getD []).map FileInfo.Sys, err) :: rest)

/-- A filesystem over the in-memory store, with an empty root path. -/
def memFs : Fs MemStore := { files := memClient, rootPath := "", dirListLimit := 0 }

/-- The empty in-memory store, before any call. -/
def emptyWorld : World MemStore := { store := { objects := [], folders := [] }, calls := [] }

/-- The bytes of "Hello world !". -/
def helloWorld : Bytes := [72, 101, 108, 108, 111, 32, 119, 111, 114, 108, 100, 32, 33]

/-- The in-memory store holding "Hello world !" at `/file1`, before any call. -/
def helloStore : World MemStore :=
  { store := { objects := [("/file1", helloWorld)], folders := [] }, calls := [] }

/-- The handle that `Open("/file1")` hands out over `helloStore`. -/
def helloHandle : File :=
  { name := "/file1", streamWrite := none,
    streamRead := some { data := helloWorld, closeErr := none },
    streamWriteCloseErr := true, streamWriteErr := none, dirCursor := "", dirList := none,
    streamReadOffset := 0, cachedInfo := some { meta := Metadata.FileMetadata "file1" 13 0 } }

/-- The in-memory client, except that every `Upload` and every `GetMetadata` is refused with
the error `e`. -/
def refusingClient (e : GoError) : Client MemStore :=
  { memClient with
    Upload := fun _ _ s => (Except.error e, s)
    GetMetadata := fun _ s => (Except.error e, s) }

/-- A filesystem whose store refuses every commit and every lookup with the error "boom". -/
def refusingFs : Fs MemStore :=
  { files := refusingClient (GoError.other "boom"), rootPath := "", dirListLimit := 0 }

/-- A handle on `/file1` with an active write stream through which "Hello world !" went. -/
def writingHandle : File :=
  { name := "/file1", streamWrite := some { buf := helloWorld, closed := false },
    streamRead := none, streamWriteCloseErr := true, streamWriteErr := none, dirCursor := "",
    dirList := none, streamReadOffset := 0, cachedInfo := none }

/-- An idle handle on `/file1` that caches a stale entry of 99 bytes. -/
def staleHandle : File :=
  { name := "/file1", streamWrite := none, streamRead := none, streamWriteCloseErr := true,
    streamWriteErr := none, dirCursor := "", dirList := none, streamReadOffset := 0,
    cachedInfo := some { meta := Metadata.FileMetadata "file1" 99 0 } }

/-- The five files of `dir1` in `TestDirList`. -/
def fiveFiles : List Metadata :=
  [Metadata.FileMetadata "file_0.txt" 9 0, Metadata.FileMetadata "file_1.txt" 9 0,
   Metadata.FileMetadata "file_2.txt" 9 0, Metadata.FileMetadata "file_3.txt" 9 0,
   Metadata.FileMetadata "file_4.txt" 9 0]

/-- The filesystem of `TestDirList`: a directory of five files listed in pages of two. -/
def listingFs : Fs Nat := { files := listingClient fiveFiles, rootPath := "", dirListLimit := 2 }

/-- The world of `listingFs` before any call. -/
def listingWorld : World Nat := { store := 0, calls := [] }

/-! ## Driving a handle -/

/-- One call on a handle, among the operations of `File` that use its streams, its
listing or its cache. -/
inductive Op where
  | Read (n : Nat)
  | Write (p : Bytes)
  | Seek (offset whence : Int)
  | ReadAt (n : Nat) (off : Int)
  | WriteAt (p : Bytes) (off : Int)
  | Stat
  | Readdir (fuel : Nat) (count : Int)
  | Close
  deriving DecidableEq, Repr

/-- The handle and the world after one call on the handle; what the call returns to its
caller is dropped. A call that panics or never returns ends the run. -/
def File.step {σ : Type} (fs : Fs σ) (f : File) (w : World σ) : Op → Run (File × World σ)
  | Op.Read n =>
      match f.Read n with
      | Except.error e => throw e
      | Except.ok (_, f1) => pure (f1, w)
  | Op.Write p =>
      match f.Write p with
      | Except.error e => throw e
      | Except.ok (_, f1) => pure (f1, w)
  | Op.Seek offset whence =>
      match File.Seek fs f offset whence w with
      | Except.error e => throw e
      | Except.ok (_, f1, w1) => pure (f1, w1)
  | Op.ReadAt n off =>
      match File.ReadAt fs f n off w with
      | Except.error e => throw e
      | Except.ok (_, f1, w1) => pure (f1, w1)
  | Op.WriteAt p off =>
      match File.WriteAt fs f p off w with
      | Except.error e => throw e
      | Except.ok (_, f1, w1) => pure (f1, w1)
  | Op.Stat =>
      match File.Stat fs f w with
      | (_, f1, w1) => pure (f1, w1)
  | Op.Readdir fuel count =>
      match File.Readdir fs fuel f count w with
      | Except.error e => throw e
      | Except.ok (_, f1, w1) => pure (f1, w1)
  | Op.Close =>
      match File.Close fs f w with
      | Except.error e => throw e
      | Except.ok (_, f1, w1) => pure (f1, w1)

/-- The handle and the world after a sequence of calls on the handle. -/
def File.run {σ : Type} (fs : Fs σ) : List Op → File → World σ → Run (File × World σ)
  | [], f, w => pure (f, w)
  | op :: ops, f, w =>
      match File.step fs f w op with
      | Except.error e => throw e
      | Except.ok (f1, w1) => File.run fs ops f1 w1

/-- The handle `f` was handed out, in the world `w`, by `Open`, `OpenFile` or `Create`
(with or without an error next to it). -/
def Obtained {σ : Type} (fs : Fs σ) (f : File) (w : World σ) : Prop :=
  ∃ name w0 err,
    (∃ flag perm, fs.OpenFile name flag perm w0 = Except.ok ((some f, err), w))
    ∨ fs.Open name w0 = Except.ok ((some f, err), w)
    ∨ fs.Create name w0 = Except.ok ((some f, err), w)

/-- At most one of the two streams of the handle is active. -/
def File.Exclusive (f : File) : Prop := f.streamRead = none ∨ f.streamWrite = none

/-- No stream is active in `f1` that was not active in `f`. -/
def File.NoNewStream (f f1 : File) : Prop :=
  (f.streamRead = none → f1.streamRead = none) ∧ (f.streamWrite = none → f1.streamWrite = none)

/-- The world in which `Open("/file1")` over `helloStore` hands out `helloHandle`. -/
def openedWorld : World MemStore :=
  { store := helloStore.store,
    calls := [Call.GetMetadata "/file1", Call.Download "/file1"] }

/-- The handle `helloHandle` after a read of 5 bytes. -/
def helloAfterRead : File :=
  { helloHandle with
    streamRead := some { data := [32, 119, 111, 114, 108, 100, 32, 33], closeErr := none } }

/-- The handle `helloHandle` once closed. -/
def helloClosed : File := { helloHandle with streamRead := none }

/-- An idle handle on `/dir1`: no stream was opened on it, as for a directory. -/
def idleHandle : File := newFile "/dir1"

/-! ## Lemmas -/

theorem errorsIs_self (e : GoError) : errorsIs e e = true := by
  cases e <;> simp [errorsIs]

theorem fmtErrorf_wraps (msg : String) (e : GoError) :
    (fmtErrorf msg (some e)).Wraps e = true := by
  simp [fmtErrorf, GoError.Wraps, errorsIs_self]

theorem Fs.stat_ok {σ : Type} (fs : Fs σ) (name : String) (w : World σ) (m : Metadata) (s : σ)
    (h : fs.files.GetMetadata name w.store = (Except.ok m, s)) :
    fs.stat name w = ((some (newFileInfo m), none), w.record (Call.GetMetadata name) s) := by
  simp [Fs.stat, h]

theorem Fs.stat_error {σ : Type} (fs : Fs σ) (name : String) (w : World σ) (e : GoError) (s : σ)
    (h : fs.files.GetMetadata name w.store = (Except.error e, s)) :
    fs.stat name w =
      ((none, some (if isPathNotFound e then GoError.osErrNotExist
                    else GoError.wrapf "couldn't fetch file info" e)),
        w.record (Call.GetMetadata name) s) := by
  unfold Fs.stat isPathNotFound
  rw [h]
  cases hs : asGetMetadataAPIError e with
  | none => simp [hs, fmtErrorf]
  | some summary =>
      by_cases hp : hasPrefixStr summary "path/not_found/" = true
      · simp [hs, hp]
      · simp [hs, hp, fmtErrorf]

/-- The result of `Fs.stat` on a failed lookup is `os.ErrNotExist` or a wrapper of the
store's error, by the test `isPathNotFound`. -/
theorem Fs.stat_fst_error {σ : Type} (fs : Fs σ) (name : String) (w : World σ) (e : GoError)
    (h : (fs.files.GetMetadata name w.store).1 = Except.error e) :
    (fs.stat name w).1 =
      (none, some (if isPathNotFound e then GoError.osErrNotExist
                   else GoError.wrapf "couldn't fetch file info" e)) := by
  rcases hg : fs.files.GetMetadata name w.store with ⟨r, s⟩
  rw [hg] at h
  simp only at h
  subst h
  rw [Fs.stat_error fs name w e s hg]

theorem Fs.stat_fst_ok {σ : Type} (fs : Fs σ) (name : String) (w : World σ) (m : Metadata)
    (h : (fs.files.GetMetadata name w.store).1 = Except.ok m) :
    (fs.stat name w).1 = (some (newFileInfo m), none) := by
  rcases hg : fs.files.GetMetadata name w.store with ⟨r, s⟩
  rw [hg] at h
  simp only at h
  subst h
  rw [Fs.stat_ok fs name w m s hg]

/-- Writes on an open pipe all succeed and append to what went through it. -/
theorem File.writeAll_open (chunks : List Bytes) (f : File) (buf : Bytes)
    (h : f.streamWrite = some { buf := buf, closed := false }) :
    File.writeAll f chunks
      = Except.ok (none, { f with streamWrite := some { buf := buf ++ chunks.flatten, closed := false } }) := by
  induction chunks generalizing f buf with
  | nil =>
      cases f
      simp only at h
      subst h
      simp [File.writeAll, pure, Except.pure]
  | cons p ps ih =>
      have hw : f.Write p = Except.ok ((p.length, none),
          { f with streamWrite := some { buf := buf ++ p, closed := false } }) := by
        simp [File.Write, h, PipeWriter.Write, pure, Except.pure]
      rw [File.writeAll, hw]
      simp only
      rw [ih _ (buf ++ p) rfl]
      simp [List.append_assoc]

/-- `Close` on a handle with an active write stream closes the pipe, runs the upload to its
end and returns the error of the upload. -/
theorem File.Close_write {σ : Type} (fs : Fs σ) (f : File) (pw : PipeWriter) (w : World σ)
    (hr : f.streamRead = none) (hw : f.streamWrite = some pw)
    (hc : f.streamWriteCloseErr = true) :
    File.Close fs f w = Except.ok
      ((File.uploadTask fs { f with streamWrite := some { pw with closed := true } } pw.buf w).1,
       { (File.uploadTask fs { f with streamWrite := some { pw with closed := true } }
            pw.buf w).2.1 with streamWrite := none, streamWriteCloseErr := false },
       (File.uploadTask fs { f with streamWrite := some { pw with closed := true } }
            pw.buf w).2.2) := by
  unfold File.Close
  rw [hr, hw]
  simp only [PipeWriter.Close, hc, if_true]
  rfl

/-- Opening a write stream on an idle handle and writing the chunks leaves a handle whose
pipe carries the chunks in order; what remains is the `Close`. -/
theorem File.writeAndClose_eq {σ : Type} (fs : Fs σ) (f : File) (chunks : List Bytes)
    (w : World σ) (hw : f.streamWrite = none) :
    File.writeAndClose fs f chunks w
      = File.Close fs
          { f with cachedInfo := none, streamWriteCloseErr := true,
                   streamWrite := some { buf := chunks.flatten, closed := false } } w := by
  have hwa := File.writeAll_open chunks
    { f with cachedInfo := none, streamWriteCloseErr := true,
             streamWrite := some { buf := [], closed := false } } [] rfl
  simp only [List.nil_append] at hwa
  unfold File.writeAndClose File.openWriteStream
  rw [hw]
  simp only
  rw [hwa]

/-- Whatever the store answers, `openReadStream` returns a non-nil error when it returns. -/
theorem File.openReadStream_error {σ : Type} (fs : Fs σ) (f : File) (startAt : Int)
    (w : World σ) (r : Option GoError × File × World σ)
    (h : File.openReadStream fs f startAt w = Except.ok r) : r.1.isSome = true := by
  unfold File.openReadStream at h
  split at h
  · cases h
  · split at h <;> (cases h; rfl)

/-- A `Read` leaves the cursor `streamReadOffset` as it is. -/
theorem File.Read_streamReadOffset (f : File) (n : Nat) (r : (Bytes × Option GoError) × File)
    (h : f.Read n = Except.ok r) : r.2.streamReadOffset = f.streamReadOffset := by
  unfold File.Read at h
  split at h
  · cases h
  · split at h <;> (cases h; rfl)

/-- On a read stream that closes cleanly, `seekRead` to a negative target returns
`ErrInvalidSeek` and leaves the handle without a stream; no store call is made. -/
theorem File.seekRead_negative {σ : Type} (fs : Fs σ) (f : File) (rc : ReadCloser)
    (offset whence target : Int) (w : World σ)
    (hs : f.streamRead = some rc) (hc : rc.closeErr = none)
    (ht : File.seekTarget f offset whence = Except.ok target) (hneg : target < 0) :
    File.seekRead fs f offset whence w
      = Except.ok ((target, some GoError.ErrInvalidSeek), { f with streamRead := none }, w) := by
  unfold File.seekRead
  rw [ht]
  simp only [hs, hc, hneg, if_true]
  rfl

/-- Whatever the store answers, a `Seek` that returns, returns a non-nil error. -/
theorem File.Seek_error {σ : Type} (fs : Fs σ) (f : File) (offset whence : Int) (w : World σ)
    (r : (Int × Option GoError) × File × World σ)
    (h : File.Seek fs f offset whence w = Except.ok r) : r.1.2.isSome = true := by
  unfold File.Seek at h
  split at h
  · cases h; rfl
  · split at h
    · unfold File.seekRead at h
      split at h
      · cases h
      · split at h
        · cases h
        · split at h
          · cases h; rfl
          · simp only at h
            split at h
            · cases h; rfl
            · split at h
              · cases h
              · rename_i err f2 w2 hopen
                cases h
                exact File.openReadStream_error fs _ _ w (err, f2, w2) hopen
    · cases h; rfl

/-! ## Claims -/

/-- C1 (the code departs from it): on a store that keeps what is uploaded and serves it back,
`OpenFile(p, O_WRONLY)`, two writes and `Close` all return no error, and the handle of the
following `OpenFile(p, O_RDONLY)` holds exactly the bytes written, but that call returns
the non-nil error `fmt.Errorf("couldn't download file: %w", nil)`. -/
theorem C1_reopen_for_read_returns_error :
    writeThenReopen memFs "/file-1KB" [[72, 101, 108], [108, 111]] emptyWorld
      = Except.ok (none, none, some (GoError.wrapfNil "couldn't download file"),
                   some [72, 101, 108, 108, 111]) := by
  rfl

/-- C2 (as amended): on a handle with an active write stream, `Close` returns and makes
exactly one `Upload` call, for the bytes written; it returns no error if and only if that
call succeeded, and when the call fails with the error `e` it returns `e` itself. -/
theorem C2_close_returns_commit_error {σ : Type} (fs : Fs σ) (f : File) (pw : PipeWriter)
    (w : World σ) (hr : f.streamRead = none) (hw : f.streamWrite = some pw)
    (hc : f.streamWriteCloseErr = true) :
    ∃ r, File.Close fs f w = Except.ok r
      ∧ r.2.1.streamWrite = none
      ∧ r.2.2 = w.record (Call.Upload f.commitInfo pw.buf)
                  (fs.files.Upload f.commitInfo pw.buf w.store).2
      ∧ (r.1 = none ↔ ∃ m, (fs.files.Upload f.commitInfo pw.buf w.store).1 = Except.ok m)
      ∧ (∀ e, (fs.files.Upload f.commitInfo pw.buf w.store).1 = Except.error e → r.1 = some e) := by
  rcases hu : fs.files.Upload f.commitInfo pw.buf w.store with ⟨r, s⟩
  have hu2 : fs.files.Upload { Path := f.name, Mode := "overwrite", Autorename := false }
      pw.buf w.store = (r, s) := hu
  cases r with
  | error e =>
      simp only [File.Close, hr, hw, hc, PipeWriter.Close, File.uploadTask, hu2]
      refine ⟨_, rfl, ?_⟩
      refine ⟨rfl, rfl, ?_, ?_⟩
      · simp
      · intro e2 h2
        simp only [Except.error.injEq] at h2
        rw [h2]
  | ok m =>
      simp only [File.Close, hr, hw, hc, PipeWriter.Close, File.uploadTask, hu2]
      refine ⟨_, rfl, ?_⟩
      refine ⟨rfl, rfl, ?_, ?_⟩
      · simp
      · intro e2 h2
        simp at h2

/-- C2, at a concrete input: the store refuses the commit with "boom" and `Close` on the
handle that wrote "Hello world !" returns "boom". -/
theorem C2_close_returns_commit_error_witness :
    ∃ r, File.Close refusingFs writingHandle emptyWorld = Except.ok r
      ∧ r.2.1.streamWrite = none
      ∧ r.2.2 = emptyWorld.record (Call.Upload writingHandle.commitInfo helloWorld)
          (refusingFs.files.Upload writingHandle.commitInfo helloWorld emptyWorld.store).2
      ∧ (r.1 = none ↔ ∃ m, (refusingFs.files.Upload writingHandle.commitInfo helloWorld
            emptyWorld.store).1 = Except.ok m)
      ∧ (∀ e, (refusingFs.files.Upload writingHandle.commitInfo helloWorld
            emptyWorld.store).1 = Except.error e → r.1 = some e) :=
  C2_close_returns_commit_error refusingFs writingHandle { buf := helloWorld, closed := false }
    emptyWorld rfl rfl rfl

/-- C2 (as stated, refuted): when the store refuses the commit with the error "boom",
`Close` returns "boom" itself, and so no error that wraps "boom". -/
theorem C2_close_error_is_not_a_wrapper :
    (refusingFs.files.Upload writingHandle.commitInfo helloWorld emptyWorld.store).1
        = Except.error (GoError.other "boom")
    ∧ (File.Close refusingFs writingHandle emptyWorld).map (fun r => r.1)
        = Except.ok (some (GoError.other "boom"))
    ∧ ¬ ∃ err, (File.Close refusingFs writingHandle emptyWorld).map (fun r => r.1)
          = Except.ok (some err) ∧ err.Wraps (GoError.other "boom") = true := by
  refine ⟨rfl, rfl, ?_⟩
  rintro ⟨err, h1, h2⟩
  have h3 : (File.Close refusingFs writingHandle emptyWorld).map (fun r => r.1)
      = Except.ok (some (GoError.other "boom")) := rfl
  rw [h3] at h1
  simp only [Except.ok.injEq, Option.some.injEq] at h1
  subst h1
  simp [GoError.Wraps] at h2

theorem wrap64_of_lt (x : Int) (h0 : 0 ≤ x) (h1 : x < 2 ^ 63) : wrap64 x = x := by
  unfold wrap64
  have h2 : (x + 2 ^ 63) % 2 ^ 64 = x + 2 ^ 63 := by
    apply Int.emod_eq_of_lt
    · omega
    · norm_num at h1 ⊢
      omega
  rw [h2]
  omega

/-- C3: for a handle with no active stream and any cached entry, once a write stream is
opened, the chunks are written and `Close` returns no error, `Stat` returns with no error
the entry that the `Upload` call returned, leaves the handle and the world as they are (no
metadata lookup: the only store call of the whole run is that `Upload`, of the bytes
written), and the size of that entry is the number of bytes written when the store
acknowledges a commit with a file entry of the size it received. -/
theorem C3_stat_after_close_is_commit_entry {σ : Type} (fs : Fs σ) (f : File)
    (chunks : List Bytes) (w : World σ)
    (hr : f.streamRead = none) (hw : f.streamWrite = none)
    (hfaithful : ∀ arg content s m, (fs.files.Upload arg content s).1 = Except.ok m →
        ∃ nm t, m = Metadata.FileMetadata nm content.length t)
    (hsize : (chunks.flatten.length : Int) < 2 ^ 63)
    (hrun : (File.writeAndClose fs f chunks w).map (fun r => r.1) = Except.ok none) :
    ∃ m f2 w2,
      (fs.files.Upload f.commitInfo chunks.flatten w.store).1 = Except.ok m
      ∧ File.writeAndClose fs f chunks w = Except.ok (none, f2, w2)
      ∧ File.Stat fs f2 w2 = ((some (newFileInfo m), none), f2, w2)
      ∧ w2.calls = w.calls ++ [Call.Upload f.commitInfo chunks.flatten]
      ∧ (newFileInfo m).Size = Except.ok (chunks.flatten.length : Int) := by
  have hwc := File.writeAndClose_eq fs f chunks w hw
  have hcl := File.Close_write fs
    { f with cachedInfo := none, streamWriteCloseErr := true,
             streamWrite := some { buf := chunks.flatten, closed := false } }
    { buf := chunks.flatten, closed := false } w hr rfl rfl
  rw [hcl] at hwc
  rcases hu : fs.files.Upload f.commitInfo chunks.flatten w.store with ⟨r, s⟩
  have hu2 : fs.files.Upload { Path := f.name, Mode := "overwrite", Autorename := false }
      chunks.flatten w.store = (r, s) := hu
  simp only [File.uploadTask, hu2] at hwc
  cases r with
  | error e =>
      exfalso
      rw [hwc] at hrun
      simp [Except.map] at hrun
  | ok m =>
      obtain ⟨nm, t, hm⟩ := hfaithful f.commitInfo chunks.flatten w.store m (by rw [hu])
      rw [hwc]
      refine ⟨m, _, _, rfl, rfl, ?_⟩
      refine ⟨rfl, rfl, ?_⟩
      subst hm
      simp only [newFileInfo, FileInfo.Size, pure, Except.pure]
      rw [wrap64_of_lt _ (by positivity) hsize]

/-- C3, at a concrete input: a handle that caches a stale entry of 99 bytes writes the 13
bytes of "Hello world !" to the in-memory store; `Stat` then returns the entry of the
commit, of size 13. -/
theorem C3_stat_after_close_is_commit_entry_witness :
    ∃ m f2 w2,
      (memFs.files.Upload staleHandle.commitInfo [helloWorld].flatten emptyWorld.store).1
        = Except.ok m
      ∧ File.writeAndClose memFs staleHandle [helloWorld] emptyWorld = Except.ok (none, f2, w2)
      ∧ File.Stat memFs f2 w2 = ((some (newFileInfo m), none), f2, w2)
      ∧ w2.calls = emptyWorld.calls ++ [Call.Upload staleHandle.commitInfo [helloWorld].flatten]
      ∧ (newFileInfo m).Size = Except.ok ([helloWorld].flatten.length : Int) :=
  C3_stat_after_close_is_commit_entry memFs staleHandle [helloWorld] emptyWorld rfl rfl
    (fun _ _ _ _ h => ⟨_, _, (Except.ok.inj h).symm⟩) (by decide) rfl

/-- C4 (the code departs from it): on the read handle of the 13-byte object "Hello world !",
`Seek(0, io.SeekStart)` returns position 0 together with the non-nil error
`fmt.Errorf("couldn't download file: %w", nil)`, and `Seek(6, io.SeekStart)` does not
return: it panics on the write into the nil `ExtraHeaders` map. -/
theorem C4_seek_start_reports_error_or_panics :
    (memFs.Open "/file1" helloStore).map (fun r => r.1.1) = Except.ok (some helloHandle)
    ∧ (File.Seek memFs helloHandle 0 SeekStart helloStore).map (fun r => r.1)
        = Except.ok (0, some (GoError.wrapfNil "couldn't download file"))
    ∧ File.Seek memFs helloHandle 6 SeekStart helloStore
        = Except.error (Fault.panic "assignment to entry in nil map") := by
  refine ⟨rfl, rfl, rfl⟩

/-- C5 (the code departs from it): on the read handle of "Hello world !",
`Seek(-1, io.SeekStart)` returns `ErrInvalidSeek`, but only after it has closed the read
stream and cleared it from the handle: the handle is left with no stream, and the `Read`
that follows panics. -/
theorem C5_invalid_seek_drops_the_stream :
    File.Seek memFs helloHandle (-1) SeekStart helloStore
      = Except.ok ((-1, some GoError.ErrInvalidSeek),
                   { helloHandle with streamRead := none }, helloStore)
    ∧ helloHandle.streamRead = some { data := helloWorld, closeErr := none }
    ∧ File.Read { helloHandle with streamRead := none } 5
        = Except.error (Fault.panic "nil pointer dereference") := by
  refine ⟨rfl, rfl, rfl⟩

/-- C6 (the code departs from it): on the read handle of "Hello world !", whose stream was
opened at offset 0, after a read that delivers the 5 bytes "Hello" the cursor
`streamReadOffset` is still 0, and `Seek(-3, io.SeekCurrent)` aims at -3 and fails with
`ErrInvalidSeek` where 0 + 5 - 3 = 2 was due; the seek to 6 of the test does not return. -/
theorem C6_read_cursor_is_never_advanced :
    (helloHandle.Read 5).map (fun r => (r.1.1, r.2.streamReadOffset))
      = Except.ok ([72, 101, 108, 108, 111], 0)
    ∧ readThenSeek memFs helloHandle 5 (-3) SeekCurrent helloStore
      = Except.ok ([72, 101, 108, 108, 111], (-3, some GoError.ErrInvalidSeek))
    ∧ File.Seek memFs helloHandle 6 SeekStart helloStore
        = Except.error (Fault.panic "assignment to entry in nil map") := by
  refine ⟨rfl, rfl, rfl⟩

/-- C7 (the code departs from it): over a directory of 5 entries served in pages of 2,
`Readdir(2)` then `Readdir(10)` return 2 entries and then 10 entries, the last entry
of the directory 8 times over, where 2 and then 3 were due; and a single `Readdir(7)`
returns 7 entries, the last one 3 times over. No error is returned. -/
theorem C7_readdir_repeats_the_last_page :
    readdirSeq listingFs 20 (newFile "/dir1") listingWorld [2, 10]
      = Except.ok
          [(fiveFiles.take 2, none),
           ((fiveFiles.drop 2) ++ List.replicate 7 (Metadata.FileMetadata "file_4.txt" 9 0), none)]
    ∧ readdirSeq listingFs 20 (newFile "/dir1") listingWorld [7]
      = Except.ok
          [(fiveFiles ++ List.replicate 2 (Metadata.FileMetadata "file_4.txt" 9 0), none)] := by
  refine ⟨rfl, rfl⟩

/-- C8 (the code departs from it): `Mkdir`, `Remove` and `Rename` return a non-nil error
whatever the store answers, also when the store call succeeds: on the empty in-memory
store `Mkdir("dir1")` creates the folder and returns
`fmt.Errorf("couldn't create dir: %w", nil)`. -/
theorem C8_pass_through_always_returns_error :
    (∀ (σ : Type) (fs : Fs σ) (name other : String) (perm : Nat) (w : World σ),
        (fs.Mkdir name perm w).1
            = some (fmtErrorf "couldn't create dir"
                (fs.files.CreateFolderV2 (pathJoin [fs.rootPath, name]) w.store).1)
        ∧ (fs.Remove name w).1
            = some (fmtErrorf "couldn't remove a file"
                (fs.files.DeleteV2 (pathJoin [fs.rootPath, name]) w.store).1)
        ∧ (fs.Rename name other w).1
            = some (fmtErrorf "couldn't rename file"
                (fs.files.MoveV2 (pathJoin [fs.rootPath, name])
                  (pathJoin [fs.rootPath, other]) w.store).1))
    ∧ (memClient.CreateFolderV2 "dir1" emptyWorld.store).1 = none
    ∧ (memFs.Mkdir "dir1" 0 emptyWorld).1 = some (GoError.wrapfNil "couldn't create dir")
    ∧ (memFs.Mkdir "dir1" 0 emptyWorld).2.store.folders = ["dir1"] := by
  refine ⟨?_, rfl, rfl, rfl⟩
  intro σ fs name other perm w
  exact ⟨rfl, rfl, rfl⟩

/-- C9 (the code departs from it): on the empty in-memory store, `MkdirAll("/a/b")` looks up
`/a`, finds it missing, issues one create-folder call that names the full path `/a/b`
and not the prefix `/a`, and returns the error of `Mkdir` although the store call
succeeded; `MkdirAll("/a")`, as in `setup` of the tests, creates `/a` and returns an
error as well. -/
theorem C9_mkdirAll_names_full_path_and_fails :
    (memFs.MkdirAll "/a/b" 0o700 emptyWorld).1 = some (GoError.wrapfNil "couldn't create dir")
    ∧ (memFs.MkdirAll "/a/b" 0o700 emptyWorld).2.calls
        = [Call.GetMetadata "/a", Call.CreateFolderV2 "/a/b"]
    ∧ (memFs.MkdirAll "/a" 0o700 emptyWorld).1 = some (GoError.wrapfNil "couldn't create dir")
    ∧ (memFs.MkdirAll "/a" 0o700 emptyWorld).2.calls
        = [Call.GetMetadata "/a", Call.CreateFolderV2 "/a"] := by
  refine ⟨rfl, rfl, rfl, rfl⟩

/-- C10: `Fs.Stat`, the internal `Fs.stat` and `File.Stat` on a handle with an empty cache
return `(nil, os.ErrNotExist)` exactly when the metadata lookup fails with an error in whose
chain there is a metadata API error with a summary starting with `path/not_found/`; any
other failed lookup with error `e` gives `fmt.Errorf("couldn't fetch file info: %w", e)`,
which is not `os.ErrNotExist` and wraps `e`; a successful lookup gives the entry and no
error. -/
theorem C10_stat_not_found_exactly {σ : Type} (fs : Fs σ) (name : String) (f : File)
    (w : World σ) :
    ((fs.Stat name w).1 = (none, some GoError.osErrNotExist) ↔
        ∃ e, (fs.files.GetMetadata (pathJoin [fs.rootPath, name]) w.store).1 = Except.error e
          ∧ isPathNotFound e = true)
    ∧ (∀ e, (fs.files.GetMetadata (pathJoin [fs.rootPath, name]) w.store).1 = Except.error e →
        isPathNotFound e = false →
        (fs.Stat name w).1 = (none, some (GoError.wrapf "couldn't fetch file info" e))
          ∧ GoError.wrapf "couldn't fetch file info" e ≠ GoError.osErrNotExist
          ∧ (GoError.wrapf "couldn't fetch file info" e).Wraps e = true)
    ∧ (∀ m, (fs.files.GetMetadata (pathJoin [fs.rootPath, name]) w.store).1 = Except.ok m →
        (fs.Stat name w).1 = (some (newFileInfo m), none))
    ∧ (fs.Stat name w).1 = (fs.stat (pathJoin [fs.rootPath, name]) w).1
    ∧ (File.Stat fs { f with cachedInfo := none } w).1 = (fs.stat f.name w).1 := by
  refine ⟨?_, ?_, ?_, rfl, ?_⟩
  · constructor
    · intro h
      cases hg : (fs.files.GetMetadata (pathJoin [fs.rootPath, name]) w.store).1 with
      | ok m =>
          have := Fs.stat_fst_ok fs _ w m hg
          simp only [Fs.Stat] at h
          rw [this] at h
          simp at h
      | error e =>
          refine ⟨e, rfl, ?_⟩
          have := Fs.stat_fst_error fs _ w e hg
          simp only [Fs.Stat] at h
          rw [this] at h
          by_cases hp : isPathNotFound e = true
          · exact hp
          · simp [hp] at h
    · rintro ⟨e, he, hp⟩
      simp only [Fs.Stat]
      rw [Fs.stat_fst_error fs _ w e he]
      simp [hp]
  · intro e he hp
    refine ⟨?_, ?_, ?_⟩
    · simp only [Fs.Stat]
      rw [Fs.stat_fst_error fs _ w e he]
      simp [hp]
    · simp
    · simp [GoError.Wraps, errorsIs_self]
  · intro m hm
    simp only [Fs.Stat]
    exact Fs.stat_fst_ok fs _ w m hm
  · simp only [File.Stat]

/-- C10, at concrete inputs: a missing path over the in-memory store gives `os.ErrNotExist`,
a lookup refused with "boom" gives the wrapper of "boom", and the stored object gives its
entry. -/
theorem C10_stat_not_found_exactly_witness :
    (memFs.Stat "/missing" helloStore).1 = (none, some GoError.osErrNotExist)
    ∧ (refusingFs.Stat "/file1" helloStore).1
        = (none, some (GoError.wrapf "couldn't fetch file info" (GoError.other "boom")))
    ∧ (memFs.Stat "/file1" helloStore).1
        = (some (newFileInfo (Metadata.FileMetadata "file1" 13 0)), none) :=
  ⟨(C10_stat_not_found_exactly memFs "/missing" helloHandle helloStore).1.2
      ⟨GoError.GetMetadataAPIError "path/not_found/..", rfl, rfl⟩,
   ((C10_stat_not_found_exactly refusingFs "/file1" helloHandle helloStore).2.1
      (GoError.other "boom") rfl rfl).1,
   (C10_stat_not_found_exactly memFs "/file1" helloHandle helloStore).2.2.1
      (Metadata.FileMetadata "file1" 13 0) rfl⟩

/-! ## Streams along a run -/

theorem File.NoNewStream.refl (f : File) : File.NoNewStream f f := ⟨id, id⟩

theorem File.NoNewStream.trans {f g h : File} (h1 : File.NoNewStream f g)
    (h2 : File.NoNewStream g h) : File.NoNewStream f h :=
  ⟨fun hf => h2.1 (h1.1 hf), fun hf => h2.2 (h1.2 hf)⟩

theorem File.Exclusive.of_noNewStream {f g : File} (hf : f.Exclusive)
    (h : File.NoNewStream f g) : g.Exclusive := by
  rcases hf with hr | hw
  · exact Or.inl (h.1 hr)
  · exact Or.inr (h.2 hw)

theorem File.Read_noNewStream (f : File) (n : Nat) (r : (Bytes × Option GoError) × File)
    (h : f.Read n = Except.ok r) : File.NoNewStream f r.2 := by
  unfold File.Read at h
  split at h
  · cases h
  · rename_i rc hrc
    split at h
    · cases h; exact File.NoNewStream.refl f
    · cases h
      exact ⟨fun hn => (by rw [hrc] at hn; cases hn), fun hn => hn⟩

theorem File.Write_noNewStream (f : File) (p : Bytes) (r : (Nat × Option GoError) × File)
    (h : f.Write p = Except.ok r) : File.NoNewStream f r.2 := by
  unfold File.Write at h
  split at h
  · cases h
  · rename_i pw hpw
    cases h
    exact ⟨fun hn => hn, fun hn => (by rw [hpw] at hn; cases hn)⟩

theorem File.openReadStream_streamWrite {σ : Type} (fs : Fs σ) (f : File) (startAt : Int)
    (w : World σ) (r : Option GoError × File × World σ)
    (h : File.openReadStream fs f startAt w = Except.ok r) :
    r.2.1.streamWrite = f.streamWrite := by
  unfold File.openReadStream at h
  split at h
  · cases h
  · split at h <;> (cases h; rfl)

theorem File.Seek_noNewStream {σ : Type} (fs : Fs σ) (f : File) (offset whence : Int)
    (w : World σ) (r : (Int × Option GoError) × File × World σ)
    (h : File.Seek fs f offset whence w = Except.ok r) : File.NoNewStream f r.2.1 := by
  unfold File.Seek at h
  split at h
  · cases h; exact File.NoNewStream.refl f
  · rename_i hw
    split at h
    · rename_i rc hrc
      have hsome : ¬ f.streamRead = none := by rw [hrc]; simp
      refine ⟨fun hn => absurd hn hsome, fun _ => ?_⟩
      unfold File.seekRead at h
      split at h
      · cases h
      · split at h
        · cases h
        · split at h
          · cases h; exact hw
          · simp only at h
            split at h
            · cases h; exact hw
            · split at h
              · cases h
              · rename_i err f2 w2 hopen
                cases h
                have := File.openReadStream_streamWrite fs _ _ w (err, f2, w2) hopen
                simp only at this
                rw [this]
                exact hw
    · cases h; exact File.NoNewStream.refl f

theorem File.Stat_noNewStream {σ : Type} (fs : Fs σ) (f : File) (w : World σ) :
    File.NoNewStream f (File.Stat fs f w).2.1 := by
  unfold File.Stat
  split
  · exact ⟨fun hn => hn, fun hn => hn⟩
  · exact File.NoNewStream.refl f

theorem File.Close_noNewStream {σ : Type} (fs : Fs σ) (f : File) (w : World σ)
    (r : Option GoError × File × World σ) (h : File.Close fs f w = Except.ok r) :
    File.NoNewStream f r.2.1 := by
  unfold File.Close at h
  split at h
  · cases h
    exact ⟨fun _ => rfl, fun hn => hn⟩
  · rename_i hr
    split at h
    · split at h
      · cases h
        exact ⟨fun hn => hn, fun _ => rfl⟩
      · split at h
        · cases h
          refine ⟨fun _ => ?_, fun _ => rfl⟩
          simp only [File.uploadTask]
          split <;> exact hr
        · cases h
    · cases h; exact File.NoNewStream.refl f

/-- After `Close` on a handle with at most one active stream, no stream is active. -/
theorem File.Close_streams {σ : Type} (fs : Fs σ) (f : File) (w : World σ)
    (r : Option GoError × File × World σ) (hx : f.Exclusive)
    (h : File.Close fs f w = Except.ok r) :
    r.2.1.streamRead = none ∧ r.2.1.streamWrite = none := by
  unfold File.Close at h
  split at h
  · rename_i rc hrc
    cases h
    refine ⟨rfl, ?_⟩
    rcases hx with hr | hw
    · rw [hrc] at hr; cases hr
    · exact hw
  · rename_i hr
    split at h
    · split at h
      · cases h
        exact ⟨hr, rfl⟩
      · split at h
        · cases h
          refine ⟨?_, rfl⟩
          simp only [File.uploadTask]
          split <;> exact hr
        · cases h
    · rename_i hw
      cases h; exact ⟨hr, hw⟩

theorem File._readDir_streams {σ : Type} (fs : Fs σ) (f : File) (w : World σ)
    (r : Option GoError × File × World σ) (h : File._readDir fs f w = Except.ok r) :
    r.2.1.streamRead = f.streamRead ∧ r.2.1.streamWrite = f.streamWrite := by
  unfold File._readDir at h
  by_cases hc : f.dirCursor = ""
  · simp only [hc, if_true] at h
    generalize (fs.files.ListFolder _ _).1 = res at h
    cases res with
    | error e =>
        simp only [pure, Except.pure] at h
        cases h
        exact ⟨rfl, rfl⟩
    | ok res =>
        simp only at h
        split at h
        · cases h
        · cases h
          split <;> exact ⟨rfl, rfl⟩
  · simp only [hc, if_false] at h
    generalize (fs.files.ListFolderContinue _ _).1 = res at h
    cases res with
    | error e =>
        simp only [pure, Except.pure] at h
        cases h
        exact ⟨rfl, rfl⟩
    | ok res =>
        simp only at h
        split at h
        · cases h
        · cases h
          split <;> exact ⟨rfl, rfl⟩

theorem File.Readdir.loop_streams {σ : Type} (fs : Fs σ) (count fuel : Nat)
    (list : List FileInfo) (f : File) (w : World σ)
    (r : (Option (List FileInfo) × Option GoError) × File × World σ)
    (h : File.Readdir.loop fs count fuel list f w = Except.ok r) :
    r.2.1.streamRead = f.streamRead ∧ r.2.1.streamWrite = f.streamWrite := by
  induction fuel generalizing list f w with
  | zero =>
      unfold File.Readdir.loop at h
      split at h
      · cases h
      · cases h; exact ⟨rfl, rfl⟩
  | succ fuel ih =>
      unfold File.Readdir.loop at h
      split at h
      · split at h
        · cases h
        · rename_i err f1 w1 hfetch
          cases h
          split at hfetch
          · exact File._readDir_streams fs f w _ hfetch
          · cases hfetch
        · rename_i f1 w1 hfetch
          have hf1 : f1.streamRead = f.streamRead ∧ f1.streamWrite = f.streamWrite := by
            split at hfetch
            · exact File._readDir_streams fs f w _ hfetch
            · cases hfetch; exact ⟨rfl, rfl⟩
          have := ih _ _ _ h
          simp only at this
          exact ⟨this.1.trans hf1.1, this.2.trans hf1.2⟩
      · cases h; exact ⟨rfl, rfl⟩

theorem File.Readdir_noNewStream {σ : Type} (fs : Fs σ) (fuel : Nat) (f : File) (count : Int)
    (w : World σ) (r : (Option (List FileInfo) × Option GoError) × File × World σ)
    (h : File.Readdir fs fuel f count w = Except.ok r) : File.NoNewStream f r.2.1 := by
  unfold File.Readdir at h
  split at h
  · cases h
  · have := File.Readdir.loop_streams fs _ _ _ _ _ r h
    exact ⟨fun hn => (by rw [this.1]; exact hn), fun hn => (by rw [this.2]; exact hn)⟩

/-- No call on a handle activates a stream that was not active before the call. -/
theorem File.step_noNewStream {σ : Type} (fs : Fs σ) (f : File) (w : World σ) (op : Op)
    (f1 : File) (w1 : World σ) (h : File.step fs f w op = Except.ok (f1, w1)) :
    File.NoNewStream f f1 := by
  cases op with
  | Read n =>
      simp only [File.step] at h
      split at h
      · cases h
      · rename_i res g hr
        cases h
        exact File.Read_noNewStream f n _ hr
  | Write p =>
      simp only [File.step] at h
      split at h
      · cases h
      · rename_i res g hr
        cases h
        exact File.Write_noNewStream f p _ hr
  | Seek offset whence =>
      simp only [File.step] at h
      split at h
      · cases h
      · rename_i res g wg hr
        cases h
        exact File.Seek_noNewStream fs f offset whence w _ hr
  | ReadAt n off =>
      simp only [File.step, File.ReadAt] at h
      split at h
      · cases h
      · rename_i res g wg hr
        split at hr
        · cases hr
        · rename_i pos err g1 wg1 hs
          cases hr
          cases h
          exact File.Seek_noNewStream fs f off SeekCurrent w _ hs
        · rename_i pos g1 wg1 hs
          split at hr
          · cases hr
          · rename_i res2 g2 hrd
            cases hr
            cases h
            exact (File.Seek_noNewStream fs f off SeekCurrent w _ hs).trans
              (File.Read_noNewStream g1 n _ hrd)
  | WriteAt p off =>
      simp only [File.step, File.WriteAt] at h
      split at h
      · cases h
      · rename_i res g wg hr
        split at hr
        · cases hr
        · rename_i pos err g1 wg1 hs
          cases hr
          cases h
          exact File.Seek_noNewStream fs f off SeekCurrent w _ hs
        · rename_i pos g1 wg1 hs
          split at hr
          · cases hr
          · rename_i res2 g2 hwr
            cases hr
            cases h
            exact (File.Seek_noNewStream fs f off SeekCurrent w _ hs).trans
              (File.Write_noNewStream g1 p _ hwr)
  | Stat =>
      simp only [File.step] at h
      have := File.Stat_noNewStream fs f w
      cases h
      exact this
  | Readdir fuel count =>
      simp only [File.step] at h
      split at h
      · cases h
      · rename_i res g wg hr
        cases h
        exact File.Readdir_noNewStream fs fuel f count w _ hr
  | Close =>
      simp only [File.step] at h
      split at h
      · cases h
      · rename_i res g wg hr
        cases h
        exact File.Close_noNewStream fs f w _ hr

/-- No run of calls on a handle activates a stream that was not active at its start. -/
theorem File.run_noNewStream {σ : Type} (fs : Fs σ) (ops : List Op) (f : File) (w : World σ)
    (g : File) (wg : World σ) (h : File.run fs ops f w = Except.ok (g, wg)) :
    File.NoNewStream f g := by
  induction ops generalizing f w with
  | nil =>
      simp only [File.run, pure, Except.pure] at h
      cases h
      exact File.NoNewStream.refl _
  | cons op ops ih =>
      simp only [File.run] at h
      split at h
      · cases h
      · rename_i f1 w1 hs
        exact (File.step_noNewStream fs f w op f1 w1 hs).trans (ih f1 w1 h)

/-- `Stat` leaves the streams of the handle as they are. -/
theorem File.Stat_streams {σ : Type} (fs : Fs σ) (f : File) (w : World σ) :
    (File.Stat fs f w).2.1.streamRead = f.streamRead
      ∧ (File.Stat fs f w).2.1.streamWrite = f.streamWrite := by
  unfold File.Stat
  split <;> exact ⟨rfl, rfl⟩

/-- A handle handed out by `OpenFile` has at most one active stream. -/
theorem Fs.OpenFile_exclusive {σ : Type} (fs : Fs σ) (name : String) (flag perm : Nat)
    (w0 w : World σ) (f : File) (err : Option GoError)
    (h : fs.OpenFile name flag perm w0 = Except.ok ((some f, err), w)) : f.Exclusive := by
  unfold Fs.OpenFile at h
  simp only at h
  by_cases h1 : flag &&& O_RDWR ≠ 0
  · rw [if_pos h1] at h
    cases h
  · rw [if_neg h1] at h
    by_cases h2 : flag &&& O_APPEND ≠ 0
    · rw [if_pos h2] at h
      cases h
    · rw [if_neg h2] at h
      generalize (if flag &&& O_CREATE ≠ 0 then flag ||| O_WRONLY else flag) = flag2 at h
      by_cases h3 : flag2 &&& O_WRONLY ≠ 0
      · rw [if_pos h3] at h
        simp only [File.openWriteStream, newFile, pure, Except.pure] at h
        cases h
        exact Or.inl rfl
      · rw [if_neg h3] at h
        split at h
        · cases h
        · cases h
        · rename_i info file1 w1 hstat
          have hf1 : file1.streamRead = none ∧ file1.streamWrite = none := by
            have hs := File.Stat_streams fs (newFile (pathJoin [fs.rootPath, name])) w0
            rw [hstat] at hs
            exact hs
          split at h
          · cases h
            exact Or.inl hf1.1
          · split at h
            · cases h
            · rename_i err2 file2 w2 hopen
              have hsw := File.openReadStream_streamWrite fs _ _ _ (err2, file2, w2) hopen
              simp only at hsw
              cases h
              exact Or.inr (hsw.trans hf1.2)

/-- A handle handed out by `Create` has at most one active stream. -/
theorem Fs.Create_exclusive {σ : Type} (fs : Fs σ) (name : String) (w0 w : World σ) (f : File)
    (err : Option GoError) (h : fs.Create name w0 = Except.ok ((some f, err), w)) :
    f.Exclusive := by
  unfold Fs.Create at h
  split at h
  · cases h
  · cases h
  · cases h
  · rename_i f0 w1 hopen
    have hx := Fs.OpenFile_exclusive fs name O_WRONLY 0o777 w0 w1 f0 none hopen
    split at h
    · cases h
    · cases h
    · rename_i f1 w2 hclose
      have hs := File.Close_streams fs f0 w1 (none, f1, w2) hx hclose
      simp only at hs
      simp only [File.openWriteStream, hs.2, pure, Except.pure] at h
      cases h
      exact Or.inl hs.1

/-- Every handle handed out by `Open`, `OpenFile` or `Create` has at most one active stream. -/
theorem Obtained.exclusive {σ : Type} {fs : Fs σ} {f : File} {w : World σ}
    (h : Obtained fs f w) : f.Exclusive := by
  obtain ⟨name, w0, err, h | h | h⟩ := h
  · obtain ⟨flag, perm, h⟩ := h
    exact Fs.OpenFile_exclusive fs name flag perm w0 w f err h
  · exact Fs.OpenFile_exclusive fs name O_RDONLY 0o777 w0 w f err h
  · exact Fs.Create_exclusive fs name w0 w f err h

/-- C11: a `Seek` on a handle with an active write stream returns `ErrNotSupported`, and a
`Seek` on a handle with no active stream (one that never had a stream, or one that was
closed) returns `afero.ErrFileClosed`, for every offset and whence; in both cases the
handle and the world, with its trace of store calls, are returned as they were. -/
theorem C11_seek_without_read_stream {σ : Type} (fs : Fs σ) (f : File) (offset whence : Int)
    (w : World σ) :
    (∀ pw, f.streamWrite = some pw →
        File.Seek fs f offset whence w
          = Except.ok ((0, some GoError.ErrNotSupported), f, w))
    ∧ (f.streamWrite = none → f.streamRead = none →
        File.Seek fs f offset whence w
          = Except.ok ((0, some GoError.ErrFileClosed), f, w))
    ∧ (∀ err f1 w1, f.Exclusive → File.Close fs f w = Except.ok (err, f1, w1) →
        File.Seek fs f1 offset whence w1
          = Except.ok ((0, some GoError.ErrFileClosed), f1, w1)) := by
  have hclosed : ∀ (g : File) (wg : World σ), g.streamWrite = none → g.streamRead = none →
      File.Seek fs g offset whence wg
        = Except.ok ((0, some GoError.ErrFileClosed), g, wg) := by
    intro g wg hw hr
    simp only [File.Seek, hw, hr, pure, Except.pure]
  refine ⟨?_, hclosed f w, ?_⟩
  · intro pw hw
    simp only [File.Seek, hw, pure, Except.pure]
  · intro err f1 w1 hx hclose
    have hs := File.Close_streams fs f w (err, f1, w1) hx hclose
    exact hclosed f1 w1 hs.2 hs.1

/-- C11, at concrete inputs: `Seek(10, io.SeekStart)` on the handle that is writing
"Hello world !", on a handle that never had a stream, and on the read handle of
"Hello world !" once closed. -/
theorem C11_seek_without_read_stream_witness :
    File.Seek memFs writingHandle 10 SeekStart emptyWorld
        = Except.ok ((0, some GoError.ErrNotSupported), writingHandle, emptyWorld)
    ∧ File.Seek memFs idleHandle 10 SeekStart emptyWorld
        = Except.ok ((0, some GoError.ErrFileClosed), idleHandle, emptyWorld)
    ∧ File.Seek memFs { helloHandle with streamRead := none } 10 SeekStart openedWorld
        = Except.ok ((0, some GoError.ErrFileClosed),
                     { helloHandle with streamRead := none }, openedWorld) :=
  ⟨(C11_seek_without_read_stream memFs writingHandle 10 SeekStart emptyWorld).1
      { buf := helloWorld, closed := false } rfl,
   (C11_seek_without_read_stream memFs idleHandle 10 SeekStart emptyWorld).2.1 rfl rfl,
   (C11_seek_without_read_stream memFs helloHandle 10 SeekStart openedWorld).2.2
      none { helloHandle with streamRead := none } openedWorld (Or.inr rfl) rfl⟩

/-- C12: `Fs.Chmod`, `Fs.Chown`, `Fs.Chtimes` and `File.Truncate` return `ErrNotSupported`
for every argument, every filesystem and every handle, whatever its streams and listing;
the three filesystem operations hand the world back as it was, with no store call added to
its trace, and `Truncate` neither receives the world nor returns a handle. -/
theorem C12_unsupported_operations {σ : Type} (fs : Fs σ) (name : String) (mode : Nat)
    (uid gid : Int) (atime mtime : Nat) (w : World σ) (f : File) (size : Int) :
    fs.Chmod name mode w = (some GoError.ErrNotSupported, w)
    ∧ fs.Chown name uid gid w = (some GoError.ErrNotSupported, w)
    ∧ fs.Chtimes name atime mtime w = (some GoError.ErrNotSupported, w)
    ∧ f.Truncate size = some GoError.ErrNotSupported :=
  ⟨rfl, rfl, rfl, rfl⟩

/-- C13: take a handle handed out by `Open`, `OpenFile` or `Create` and drive it by any
sequence of `Read`, `Write`, `Seek`, `ReadAt`, `WriteAt`, `Stat`, `Readdir` and `Close`
calls, over any store. In every state `g` reached, the read stream and the write stream are
not both active. If `g` has one kind of stream and a state `h` reached later from `g` has
the other kind, then a `Close` lies between them; in fact no state reached from a handle
with a read stream has a write stream, and none reached from a handle with a write stream
has a read stream, since no call activates a stream that was not active before it. -/
theorem C13_read_write_exclusion {σ : Type} (fs : Fs σ) (f0 : File) (w0 : World σ)
    (ops1 ops2 : List Op) (g h : File) (wg wh : World σ)
    (hobt : Obtained fs f0 w0)
    (h1 : File.run fs ops1 f0 w0 = Except.ok (g, wg))
    (h2 : File.run fs ops2 g wg = Except.ok (h, wh)) :
    ¬ (g.streamRead.isSome = true ∧ g.streamWrite.isSome = true)
    ∧ (g.streamRead.isSome = true → h.streamWrite.isSome = true → Op.Close ∈ ops2)
    ∧ (g.streamWrite.isSome = true → h.streamRead.isSome = true → Op.Close ∈ ops2)
    ∧ (g.streamRead.isSome = true → h.streamWrite = none)
    ∧ (g.streamWrite.isSome = true → h.streamRead = none) := by
  have hg : g.Exclusive :=
    (Obtained.exclusive hobt).of_noNewStream (File.run_noNewStream fs ops1 f0 w0 g wg h1)
  have hgh := File.run_noNewStream fs ops2 g wg h wh h2
  have hrw : g.streamRead.isSome = true → h.streamWrite = none := by
    intro hr
    rcases hg with hn | hn
    · rw [hn] at hr; cases hr
    · exact hgh.2 hn
  have hwr : g.streamWrite.isSome = true → h.streamRead = none := by
    intro hw
    rcases hg with hn | hn
    · exact hgh.1 hn
    · rw [hn] at hw; cases hw
  refine ⟨?_, ?_, ?_, hrw, hwr⟩
  · rintro ⟨hr, hw⟩
    rcases hg with hn | hn
    · rw [hn] at hr; cases hr
    · rw [hn] at hw; cases hw
  · intro hr hw
    rw [hrw hr] at hw
    cases hw
  · intro hw hr
    rw [hwr hw] at hr
    cases hr

/-- C13, at a concrete input: the read handle that `Open("/file1")` hands out over the
store of "Hello world !" reads 5 bytes, then seeks to 0 and is closed; the state after the
read has a read stream and no write stream, and the state after the close has neither. -/
theorem C13_read_write_exclusion_witness :
    memFs.Open "/file1" helloStore
        = Except.ok ((some helloHandle, some (GoError.wrapfNil "couldn't download file")),
                     openedWorld)
    ∧ File.run memFs [Op.Read 5] helloHandle openedWorld = Except.ok (helloAfterRead, openedWorld)
    ∧ File.run memFs [Op.Seek 0 SeekStart, Op.Close] helloAfterRead openedWorld
        = Except.ok (helloClosed, openedWorld.record (Call.Download "/file1") helloStore.store)
    ∧ helloAfterRead.streamRead.isSome = true
    ∧ ¬ (helloAfterRead.streamRead.isSome = true ∧ helloAfterRead.streamWrite.isSome = true)
    ∧ helloClosed.streamWrite = none :=
  have hw := C13_read_write_exclusion memFs helloHandle openedWorld
    [Op.Read 5] [Op.Seek 0 SeekStart, Op.Close] helloAfterRead helloClosed
    openedWorld (openedWorld.record (Call.Download "/file1") helloStore.store)
    ⟨"/file1", helloStore, some (GoError.wrapfNil "couldn't download file"),
      Or.inr (Or.inl rfl)⟩
    rfl rfl
  ⟨rfl, rfl, rfl, rfl, hw.1, hw.2.2.2.1 rfl⟩

end Dropbox
